import Mathlib

/- Shallow embedding of the go-epub package document model (pkg.go) and
   EPUB resource/section management (epub.go).  Strings are Lean strings,
   Go maps are association lists, and the external fetch / data-URL
   collaborators appear as function parameters. -/

namespace GoEpub

/-- Decimal digit character: '0' + d (for d < 10). -/
def digitChar (d : Nat) : Char := Char.ofNat (48 + d)

/-- Digit list of a natural number, most significant digit first; fuel-driven
version of the usual div/mod recursion (fuel n + 1 always suffices). -/
def natDigitsAux : Nat → Nat → List Char
  | 0, _ => []
  | fuel + 1, n =>
    if n < 10 then [digitChar n]
    else natDigitsAux fuel (n / 10) ++ [digitChar (n % 10)]

/-- Models the Go fmt verb %d on a natural number. -/
def goFormatNat (n : Nat) : String := String.mk (natDigitsAux (n + 1) n)

/-- Models the Go fmt verb %04d: decimal, zero-padded to width 4. -/
def goPad4 (n : Nat) : String :=
  let s := goFormatNat n
  if s.length < 4 then String.mk (List.replicate (4 - s.length) '0') ++ s else s

/-- Numeric value of a decimal digit character (proof tool used to invert
the formatting functions). -/
def digitVal (c : Char) : Nat := c.toNat - 48

/-- Left fold computing the value of a digit string. -/
def decValAux : Nat → List Char → Nat
  | acc, [] => acc
  | acc, c :: cs => decValAux (acc * 10 + digitVal c) cs

/-- Value of a digit string, most significant digit first. -/
def decVal (cs : List Char) : Nat := decValAux 0 cs

/-- Split a character list at '/' separators; segments may be empty and the
result is always nonempty. -/
def splitSlash : List Char → List (List Char)
  | [] => [[]]
  | c :: cs =>
    if c = '/' then [] :: splitSlash cs
    else
      match splitSlash cs with
      | [] => [[c]]
      | s :: rest => (c :: s) :: rest

/-- One step of Go path.Clean: process one path element against the stack of
output elements (stack held in reverse order). -/
def cleanStep (rooted : Bool) (stack : List (List Char)) (seg : List Char) : List (List Char) :=
  if seg = [] ∨ seg = ['.'] then stack
  else if seg = ['.', '.'] then
    match stack with
    | [] => if rooted then [] else [['.', '.']]
    | top :: rest => if top = ['.', '.'] then seg :: stack else rest
  else seg :: stack

/-- Models Go strings.Join. -/
def goStringsJoin (sep : String) : List String → String
  | [] => ""
  | [s] => s
  | s :: rest => s ++ sep ++ goStringsJoin sep rest

/-- Models Go path.Clean (lexical cleaning), expressed on the list of
'/'-separated elements rather than by Go's index arithmetic. -/
def goPathClean (p : String) : String :=
  if p = "" then "."
  else
    let rooted := p.data.head? == some '/'
    let stack := (splitSlash p.data).foldl (cleanStep rooted) []
    let body := goStringsJoin "/" (stack.reverse.map String.mk)
    if rooted then "/" ++ body
    else if body = "" then "." else body

/-- Models Go path.Join: skip leading empty elements, join the rest with '/'
and clean the result. -/
def goPathJoin : List String → String
  | [] => ""
  | e :: rest =>
    if e = "" then goPathJoin rest
    else goPathClean (goStringsJoin "/" (e :: rest))

/-- Models Go filepath.Base on slash-separated paths. -/
def goFilepathBase (p : String) : String :=
  if p = "" then "."
  else
    let r := p.data.reverse.dropWhile (· = '/')
    if r = [] then "/"
    else String.mk ((r.takeWhile (· ≠ '/')).reverse)

/-- Models Go filepath.Ext: the suffix of the last path element starting at
its final dot, or "" when the last element has no dot. -/
def goFilepathExt (p : String) : String :=
  let seg := p.data.reverse.takeWhile (· ≠ '/')
  match seg.findIdx? (· = '.') with
  | none => ""
  | some i => String.mk ((seg.take (i + 1)).reverse)

/-- Models Go io/fs.ValidPath. -/
def goFsValidPath (p : String) : Bool :=
  if p = "." then true
  else (splitSlash p.data).all fun seg =>
    decide (seg ≠ [] ∧ seg ≠ ['.'] ∧ seg ≠ ['.', '.'])

/-- Models Go strings.ToLower restricted to ASCII (the library applies it
only to filename extensions). -/
def goToLower (s : String) : String := String.mk (s.data.map Char.toLower)

/-- A single plain path element: nonempty, without separator, and neither
"." nor "..". -/
def plainSeg (s : String) : Bool :=
  !(s == "") && s.data.all (fun c => !(c == '/')) && !(s == ".") && !(s == "..")

/- ### Constants (epub.go, pkg.go) -/

def CSSFolderName : String := "css"

def FontFolderName : String := "fonts"

def ImageFolderName : String := "images"

def VideoFolderName : String := "videos"

/-- Go format string "css%04d%s" as applied through fmt.Sprintf. -/
def cssFileFormat (i : Nat) (ext : String) : String := "css" ++ goPad4 i ++ ext

/-- Go format string "font%04d%s". -/
def fontFileFormat (i : Nat) (ext : String) : String := "font" ++ goPad4 i ++ ext

/-- Go format string "image%04d%s". -/
def imageFileFormat (i : Nat) (ext : String) : String := "image" ++ goPad4 i ++ ext

/-- Go format string "video%04d%s". -/
def videoFileFormat (i : Nat) (ext : String) : String := "video" ++ goPad4 i ++ ext

/-- Go format string "section%04d.xhtml". -/
def sectionFileFormat (i : Nat) : String := "section" ++ goPad4 i ++ ".xhtml"

/-- Go format string for the default cover body. -/
def defaultCoverBody (src : String) : String :=
  "<img src=\"" ++ src ++ "\" alt=\"Cover Image\" />"

def defaultCoverCSSContent : String :=
  "body \x7b\n  background-color: #FFFFFF;\n  margin-bottom: 0px;\n  margin-left: 0px;\n  margin-right: 0px;\n  margin-top: 0px;\n  text-align: center;\n\x7d\nimg \x7b\n  max-height: 100%;\n  max-width: 100%;\n\x7d\n"

def defaultCoverCSSFilename : String := "cover.css"

def defaultCoverXhtmlFilename : String := "cover.xhtml"

def defaultEpubLang : String := "en"

def SchemeMARCRelators : String := "marc:relators"

def SchemeXSDString : String := "xsd:string"

def PropertyRole : String := "role"

def PropertyIdentifierType : String := "identifier-type"

def PropertyModified : String := "dcterms:modified"

def PropertyIdentifierTypeUUID : String := "uuid"

def pkgCreatorID : String := "creator"

def pkgIdentifierID : String := "pub-id"

def xmlnsDc : String := "http://purl.org/dc/elements/1.1/"

/- ### Package document model (pkg.go) -/

/-- The meta element fields (PkgMeta, pkg.go); Go zero value is "" for every
field, and Go struct equality compares all fields. -/
structure PkgMeta where
  refines : String := ""
  property : String := ""
  scheme : String := ""
  id : String := ""
  data : String := ""
  name : String := ""
  content : String := ""
deriving DecidableEq

/-- The dc:creator element (PkgCreator, pkg.go). -/
structure PkgCreator where
  id : String
  data : String
deriving DecidableEq

/-- The dc:contributor element (PkgContributor, pkg.go). -/
structure PkgContributor where
  id : String
  data : String
deriving DecidableEq

/-- The dc:identifier element (PkgIdentifier, pkg.go). -/
structure PkgIdentifier where
  id : String
  data : String
deriving DecidableEq

/-- A manifest item (PkgItem, pkg.go). -/
structure PkgItem where
  id : String
  href : String
  mediaType : String
  properties : String
deriving DecidableEq

/-- A spine itemref (PkgItemref, pkg.go). -/
structure PkgItemref where
  idref : String
deriving DecidableEq

/-- The spine element (PkgSpine, pkg.go). -/
structure PkgSpine where
  items : List PkgItemref := []
  toc : String := ""
  ppd : String := ""
deriving DecidableEq

/-- The metadata element (PkgMetadata, pkg.go). -/
structure PkgMetadata where
  xmlnsDc : String := ""
  identifier : List PkgIdentifier := []
  title : String := ""
  language : String := ""
  description : String := ""
  publisher : String := ""
  source : String := ""
  date : String := ""
  subject : List String := []
  creator : List PkgCreator := []
  contributor : List PkgContributor := []
  meta : List PkgMeta := []
deriving DecidableEq

/-- The package document state (PkgRoot, pkg.go; the Go Pkg type is a
pointer wrapper around it). -/
structure Pkg where
  uniqueIdentifier : String := ""
  version : String := ""
  metadata : PkgMetadata := {}
  manifestItems : List PkgItem := []
  spine : PkgSpine := {}
deriving DecidableEq

/-- Models NewPkg (pkg.go 195-216).  The constructor pre-sets xmlns:dc and
unmarshals pkgFileTemplate; Go encoding/xml matches the package element,
its attributes and the spine toc attribute, but the prefixed tags
(dc:identifier, dc:title, dc:language, dc:description) in the template do
not match the decoder's namespace-resolved element names, so those fields
keep their zero values. -/
def NewPkg : Pkg :=
  { uniqueIdentifier := pkgIdentifierID,
    version := "3.0",
    metadata := { xmlnsDc := xmlnsDc },
    manifestItems := [],
    spine := { items := [], toc := "ncx", ppd := "" } }

/-- Models updateMeta (pkg.go 356-381): Go scans for the first index whose
element is (fully, field-by-field) equal to m and overwrites that slot,
otherwise appends m; expressed recursively, overwriting the first equal
element in place. -/
def updateMeta : List PkgMeta → PkgMeta → List PkgMeta
  | [], m => [m]
  | x :: rest, m => if x == m then m :: rest else x :: updateMeta rest m

/-- Models Pkg.AddToManifest (pkg.go 218-227); href is normalized with
filepath.ToSlash, the identity on slash-separated paths. -/
def pkgAddToManifest (p : Pkg) (id href mediaType properties : String) : Pkg :=
  { p with manifestItems :=
      p.manifestItems ++ [{ id := id, href := href, mediaType := mediaType, properties := properties }] }

/-- Models Pkg.AddToSpine (pkg.go 229-235). -/
def pkgAddToSpine (p : Pkg) (id : String) : Pkg :=
  { p with spine := { p.spine with items := p.spine.items ++ [{ idref := id }] } }

/-- Models Pkg.AddAuthor (pkg.go 237-253). -/
def pkgAddAuthor (p : Pkg) (author role : String) : Pkg :=
  let id := pkgCreatorID ++ goFormatNat p.metadata.creator.length
  let meta : PkgMeta :=
    { refines := "#" ++ id, id := id, property := PropertyRole,
      data := role, scheme := SchemeMARCRelators }
  { p with metadata :=
      { p.metadata with
        creator := p.metadata.creator ++ [{ id := id, data := author }],
        meta := updateMeta p.metadata.meta meta } }

/-- Models Pkg.AddContributor (pkg.go 255-271); note that the Go body
appends to the Creator list, exactly as AddAuthor does. -/
def pkgAddContributor (p : Pkg) (author role : String) : Pkg :=
  let id := pkgCreatorID ++ goFormatNat p.metadata.creator.length
  let meta : PkgMeta :=
    { refines := "#" ++ id, id := id, property := PropertyRole,
      data := role, scheme := SchemeMARCRelators }
  { p with metadata :=
      { p.metadata with
        creator := p.metadata.creator ++ [{ id := id, data := author }],
        meta := updateMeta p.metadata.meta meta } }

/-- Models Pkg.SetCover (pkg.go 274-280): upsert of the legacy cover meta. -/
def pkgSetCover (p : Pkg) (coverRef : String) : Pkg :=
  { p with metadata :=
      { p.metadata with meta := updateMeta p.metadata.meta { name := "cover", content := coverRef } } }

/-- Models Pkg.AddCustomMeta (pkg.go 282-288). -/
def pkgAddCustomMeta (p : Pkg) (name content : String) : Pkg :=
  { p with metadata :=
      { p.metadata with meta := updateMeta p.metadata.meta { name := name, content := content } } }

/-- Models Pkg.AddIdentifier (pkg.go 293-308); the id string is built from
pkgCreatorID and the length of the Creator list. -/
def pkgAddIdentifier (p : Pkg) (identifier typeSchema typeContent : String) : Pkg :=
  let id := pkgCreatorID ++ goFormatNat p.metadata.creator.length
  let meta : PkgMeta :=
    { refines := "#" ++ id, id := id, property := PropertyIdentifierType,
      data := typeContent, scheme := typeSchema }
  { p with metadata :=
      { p.metadata with
        identifier := p.metadata.identifier ++ [{ id := id, data := identifier }],
        meta := updateMeta p.metadata.meta meta } }

/-- Models Pkg.SetLang (pkg.go 310-312). -/
def pkgSetLang (p : Pkg) (lang : String) : Pkg :=
  { p with metadata := { p.metadata with language := lang } }

/-- Models Pkg.SetModified (pkg.go 342-349). -/
def pkgSetModified (p : Pkg) (timestamp : String) : Pkg :=
  { p with metadata :=
      { p.metadata with meta := updateMeta p.metadata.meta { data := timestamp, property := PropertyModified } } }

/-- Models Pkg.SetTitle (pkg.go 351-353). -/
def pkgSetTitle (p : Pkg) (title : String) : Pkg :=
  { p with metadata := { p.metadata with title := title } }

/- ### Resource registry and sections (epub.go) -/

/-- The recoverable error taxonomy of epub.go: FilenameAlreadyUsedError and
FileRetrievalError (the wrapped underlying error is carried as a string). -/
inductive GoError where
  | filenameAlreadyUsed (filename : String)
  | fileRetrieval (source : String) (err : String)
deriving DecidableEq

/-- A Go map[string]string as an association list (the library inserts a
key only after checking it is absent, so keys stay pairwise distinct). -/
abbrev MediaMap := List (String × String)

/-- Key membership, Go `_, ok := m[k]`. -/
def mmContains (m : MediaMap) (k : String) : Bool := m.any fun kv => kv.1 == k

/-- Lookup, Go `m[k]`. -/
def mmLookup (m : MediaMap) (k : String) : Option String :=
  (m.find? fun kv => kv.1 == k).map (·.2)

/-- Assignment, Go `m[k] = v`. -/
def mmInsert (m : MediaMap) (k v : String) : MediaMap :=
  if mmContains m k then m.map (fun kv => if kv.1 == k then (k, v) else kv)
  else m ++ [(k, v)]

/-- Deletion, Go `delete(m, k)`. -/
def mmErase (m : MediaMap) (k : String) : MediaMap := m.filter fun kv => !(kv.1 == k)

/-- Lines 394-406 of epub.go: resolve the internal filename.  An empty
requested name becomes the source's base name, or — when that is too long,
not a valid path, or already taken — the class-format name built from the
current map size plus one and the lower-cased source extension. -/
def resolveMediaName (source internalFilename : String)
    (mediaFileFormat : Nat → String → String) (mediaMap : MediaMap) : String :=
  if internalFilename = "" then
    if 255 < (goFilepathBase source).utf8ByteSize ∨
        goFsValidPath (goFilepathBase source) = false ∨
        mmContains mediaMap (goFilepathBase source) = true then
      mediaFileFormat (mediaMap.length + 1) (goToLower (goFilepathExt source))
    else goFilepathBase source
  else internalFilename

/-- Models addMedia (epub.go 386-419).  The grabber's existence check
(grabber.go is external to these sources; the spec treats retrieval as an
external collaborator) is the parameter `check`: `check source = some e`
means the check failed with underlying error e. -/
def addMedia (check : String → Option String) (source internalFilename : String)
    (mediaFileFormat : Nat → String → String) (mediaFolderName : String)
    (mediaMap : MediaMap) : Except GoError String × MediaMap :=
  match check source with
  | some e => (.error (.fileRetrieval source e), mediaMap)
  | none =>
    let internalFilename := resolveMediaName source internalFilename mediaFileFormat mediaMap
    if mmContains mediaMap internalFilename = true then
      (.error (.filenameAlreadyUsed internalFilename), mediaMap)
    else
      (.ok (goPathJoin ["..", mediaFolderName, internalFilename]),
       mmInsert mediaMap internalFilename source)

/-- Modelled from the spec: the XHTML document model (xhtml.go is not among
these sources) holds a title, an optional stylesheet path and the body
markup; newXhtml/setTitle/setCSS are its constructor and setters. -/
structure Xhtml where
  title : String
  css : String
  body : String
deriving DecidableEq

def newXhtml (body : String) : Xhtml := { title := "", css := "", body := body }

def xhtmlSetTitle (x : Xhtml) (t : String) : Xhtml := { x with title := t }

def xhtmlSetCSS (x : Xhtml) (c : String) : Xhtml := { x with css := c }

/-- A content section (epubSection, epub.go). -/
structure EpubSection where
  filename : String
  xhtml : Xhtml
deriving DecidableEq

/-- The filename-generation loop of addSection (epub.go 262-272): try
section%04d.xhtml for index 1, 2, ... until the generated name is unused.
The Go loop is unbounded; fuel sections.length + 1 provably suffices
(generateSectionFilename_complete below), so the none case is unreachable. -/
def generateSectionFilename (sections : List EpubSection) : Nat → Nat → Option String
  | 0, _ => none
  | fuel + 1, index =>
    let candidate := sectionFileFormat index
    if sections.any (fun s => s.filename == candidate) then
      generateSectionFilename sections fuel (index + 1)
    else some candidate

/-- Lines 281-294 of epub.go: build the xhtml document and append the
section. -/
def addSectionCommit (body sectionTitle name internalCSSPath : String)
    (sections : List EpubSection) : Except GoError String × List EpubSection :=
  let x := xhtmlSetTitle (newXhtml body) sectionTitle
  let x := if internalCSSPath ≠ "" then xhtmlSetCSS x internalCSSPath else x
  (.ok name, sections ++ [{ filename := name, xhtml := x }])

/-- Models Epub.addSection (epub.go 260-295). -/
def addSection (body sectionTitle internalFilename internalCSSPath : String)
    (sections : List EpubSection) : Except GoError String × List EpubSection :=
  if internalFilename = "" then
    match generateSectionFilename sections (sections.length + 1) 1 with
    | none => (.error (.filenameAlreadyUsed ""), sections)
    | some name => addSectionCommit body sectionTitle name internalCSSPath sections
  else if sections.any (fun s => s.filename == internalFilename) then
    (.error (.filenameAlreadyUsed internalFilename), sections)
  else
    addSectionCommit body sectionTitle internalFilename internalCSSPath sections

/- ### The Epub aggregate and the cover manager (epub.go) -/

/-- The cover bookkeeping record (epubCover, epub.go). -/
structure EpubCover where
  cssFilename : String
  cssTempFile : String
  imageFilename : String
  xhtmlFilename : String
deriving DecidableEq

/-- Modelled from the spec: the table of contents holds the publication
title and an ordered entry list (toc.go is not among these sources; only
newToc and setTitle are reached from the embedded operations). -/
structure Toc where
  title : String
  entries : List (String × String)
deriving DecidableEq

def newToc : Toc := { title := "", entries := [] }

def tocSetTitle (t : Toc) (title : String) : Toc := { t with title := title }

/-- The Epub aggregate (epub.go 102-125). -/
structure Epub where
  cover : EpubCover
  css : MediaMap
  fonts : MediaMap
  images : MediaMap
  videos : MediaMap
  lang : String
  desc : String
  ppd : String
  pkg : Pkg
  sections : List EpubSection
  toc : Toc
deriving DecidableEq

/-- Models Epub.SetTitle (epub.go 377-382). -/
def epubSetTitle (e : Epub) (title : String) : Epub :=
  { e with pkg := pkgSetTitle e.pkg title, toc := tocSetTitle e.toc title }

/-- Models NewEpub (epub.go 140-161); the generated UUID is a parameter. -/
def NewEpub (uuid title : String) : Epub :=
  let pkg := pkgSetLang
    (pkgAddIdentifier NewPkg ("urn:uuid:" ++ uuid) SchemeXSDString PropertyIdentifierTypeUUID)
    defaultEpubLang
  epubSetTitle
    { cover := { cssFilename := "", cssTempFile := "", imageFilename := "", xhtmlFilename := "" },
      css := [], fonts := [], images := [], videos := [],
      lang := "", desc := "", ppd := "",
      pkg := pkg, sections := [], toc := newToc }
    title

/-- Models Epub.addCSS (epub.go 180-182) on the Epub state. -/
def epubAddCSS (check : String → Option String) (e : Epub)
    (source internalFilename : String) : Except GoError String × Epub :=
  let r := addMedia check source internalFilename cssFileFormat CSSFolderName e.css
  (r.1, { e with css := r.2 })

/-- Models Epub.AddImage (epub.go 212-216) on the Epub state. -/
def epubAddImage (check : String → Option String) (e : Epub)
    (source imageFilename : String) : Except GoError String × Epub :=
  let r := addMedia check source imageFilename imageFileFormat ImageFolderName e.images
  (r.1, { e with images := r.2 })

/-- The removal loop of SetCover (epub.go 312-317): drop the first section
whose filename matches. -/
def removeSectionByFilename : List EpubSection → String → List EpubSection
  | [], _ => []
  | s :: rest, fn => if s.filename = fn then rest else s :: removeSectionByFilename rest fn

/-- Lines 310-328 of epub.go: when a cover already exists, drop its section
and delete its image and CSS registry entries (the os.Remove of a previous
temporary file is an external filesystem effect with no modelled state). -/
def setCoverRemovePrev (e : Epub) : Epub :=
  if e.cover.xhtmlFilename ≠ "" then
    { e with
      sections := removeSectionByFilename e.sections e.cover.xhtmlFilename,
      images := mmErase e.images e.cover.imageFilename,
      css := mmErase e.css e.cover.cssFilename }
  else e

/-- Lines 334-358 of epub.go: resolve the cover stylesheet.  Yields the
resolved CSS path, the cssTempFile value and the updated CSS map, or none
for the branches that panic.  The data-URL encoder (external collaborator,
vincent-petithory/dataurl) is the parameter `encode`; `prevTempFile` is the
cssTempFile value kept when a user stylesheet path is supplied. -/
def setCoverCSSStep (check : String → Option String) (encode : String → String)
    (css : MediaMap) (prevTempFile : String) (internalCSSPath : String) :
    Option (String × String × MediaMap) :=
  if internalCSSPath = "" then
    match addMedia check (encode defaultCoverCSSContent) defaultCoverCSSFilename
        cssFileFormat CSSFolderName css with
    | (.ok p, css') => some (p, encode defaultCoverCSSContent, css')
    | (.error (.filenameAlreadyUsed _), css') =>
      match addMedia check (encode defaultCoverCSSContent)
          (cssFileFormat (css'.length + 1) ".css") cssFileFormat CSSFolderName css' with
      | (.ok p, css'') => some (p, encode defaultCoverCSSContent, css'')
      | (.error _, _) => none
    | (.error (.fileRetrieval _ _), _) => none
  else some (internalCSSPath, prevTempFile, css)

/-- Lines 361-372 of epub.go: add the cover XHTML section, retrying once
with a generated name on a collision; none is the panic on a second
collision, and the unreachable non-collision error branches fall through
with an empty cover path exactly as the Go control flow does. -/
def setCoverSectionStep (coverBody cssPath : String) (sections : List EpubSection) :
    Option (String × List EpubSection) :=
  match addSection coverBody "" defaultCoverXhtmlFilename cssPath sections with
  | (.ok coverPath, secs) => some (coverPath, secs)
  | (.error (.filenameAlreadyUsed _), secs) =>
    match addSection coverBody "" "" cssPath secs with
    | (.ok coverPath, secs') => some (coverPath, secs')
    | (.error (.filenameAlreadyUsed _), _) => none
    | (.error (.fileRetrieval _ _), secs') => some ("", secs')
  | (.error (.fileRetrieval _ _), secs) => some ("", secs)

/-- Models Epub.SetCover (epub.go 306-374); none models the panic calls on
the double-collision branches, which the public API cannot reach.  All four
cover fields are overwritten during the call, and the steps touch disjoint
parts of the state, so the sequential Go mutations are written as one final
record update over the removal result. -/
def setCover (check : String → Option String) (encode : String → String)
    (e : Epub) (internalImagePath internalCSSPath : String) : Option Epub :=
  match setCoverCSSStep check encode (setCoverRemovePrev e).css
      (setCoverRemovePrev e).cover.cssTempFile internalCSSPath with
  | none => none
  | some (cssPath, tempFile, cssMap) =>
    match setCoverSectionStep (defaultCoverBody internalImagePath) cssPath
        (setCoverRemovePrev e).sections with
    | none => none
    | some (coverPath, secs) =>
      some { setCoverRemovePrev e with
        pkg := pkgSetCover (setCoverRemovePrev e).pkg (goFilepathBase internalImagePath),
        css := cssMap,
        sections := secs,
        cover := { cssFilename := goFilepathBase cssPath,
                   cssTempFile := tempFile,
                   imageFilename := goFilepathBase internalImagePath,
                   xhtmlFilename := goFilepathBase coverPath } }

/-- The state setCover reaches from state e with an image path of the form
"../images/<g>", a default stylesheet, and free default cover slots
(specification helper; setCover_eval below proves setCover lands here). -/
def coverInstalled (encode : String → String) (e : Epub) (g : String) : Epub :=
  { setCoverRemovePrev e with
    pkg := pkgSetCover (setCoverRemovePrev e).pkg g,
    css := (setCoverRemovePrev e).css ++
      [(defaultCoverCSSFilename, encode defaultCoverCSSContent)],
    sections := (setCoverRemovePrev e).sections ++
      [{ filename := defaultCoverXhtmlFilename,
         xhtml := xhtmlSetCSS
           (xhtmlSetTitle (newXhtml (defaultCoverBody
             (".." ++ "/" ++ (ImageFolderName ++ "/" ++ g)))) "")
           (goPathJoin ["..", CSSFolderName, defaultCoverCSSFilename]) }],
    cover := { cssFilename := defaultCoverCSSFilename,
               cssTempFile := encode defaultCoverCSSContent,
               imageFilename := g,
               xhtmlFilename := defaultCoverXhtmlFilename } }

/- ### Helper lemmas: strings and decimal formatting -/

theorem string_data_append (a b : String) : (a ++ b).data = a.data ++ b.data := rfl

theorem string_eq_of_data {a b : String} (h : a.data = b.data) : a = b :=
  congrArg String.mk h

theorem decValAux_append (a : Nat) (xs ys : List Char) :
    decValAux a (xs ++ ys) = decValAux (decValAux a xs) ys := by
  induction xs generalizing a with
  | nil => rfl
  | cons c cs ih =>
    show decValAux (a * 10 + digitVal c) (cs ++ ys) = decValAux (decValAux a (c :: cs)) ys
    rw [show decValAux a (c :: cs) = decValAux (a * 10 + digitVal c) cs from rfl]
    exact ih _

theorem digitVal_digitChar {d : Nat} (h : d < 10) : digitVal (digitChar d) = d := by
  interval_cases d <;> rfl

theorem decVal_natDigitsAux : ∀ (fuel n : Nat), n < fuel → decVal (natDigitsAux fuel n) = n := by
  intro fuel
  induction fuel with
  | zero => intro n h; omega
  | succ fuel ih =>
    intro n h
    by_cases h10 : n < 10
    · simp only [natDigitsAux, if_pos h10]
      rw [decVal]
      show decValAux (0 * 10 + digitVal (digitChar n)) [] = n
      rw [digitVal_digitChar h10]
      show 0 * 10 + n = n
      omega
    · have hpos : 0 < n := by omega
      have h1 : n / 10 < n := Nat.div_lt_self hpos (by norm_num)
      have hdiv : n / 10 < fuel := by omega
      have hmod : n % 10 < 10 := Nat.mod_lt _ (by norm_num)
      have ihd := ih (n / 10) hdiv
      rw [decVal] at ihd
      simp only [natDigitsAux, if_neg h10]
      rw [decVal, decValAux_append, ihd]
      show decValAux (n / 10 * 10 + digitVal (digitChar (n % 10))) [] = n
      rw [digitVal_digitChar hmod]
      show n / 10 * 10 + n % 10 = n
      omega

theorem decValAux_replicate_zero (k : Nat) : decValAux 0 (List.replicate k '0') = 0 := by
  induction k with
  | zero => rfl
  | succ k ih =>
    have h0 : (0 : Nat) * 10 + digitVal '0' = 0 := by decide
    rw [List.replicate_succ]
    show decValAux (0 * 10 + digitVal '0') (List.replicate k '0') = 0
    rw [h0]
    exact ih

theorem decVal_goFormatNat (n : Nat) : decVal (goFormatNat n).data = n :=
  decVal_natDigitsAux (n + 1) n (Nat.lt_succ_self n)

theorem decVal_goPad4 (n : Nat) : decVal (goPad4 n).data = n := by
  have hbase := decVal_goFormatNat n
  show decVal (if (goFormatNat n).length < 4 then
      String.mk (List.replicate (4 - (goFormatNat n).length) '0') ++ goFormatNat n
    else goFormatNat n).data = n
  by_cases hlen : (goFormatNat n).length < 4
  · rw [if_pos hlen, string_data_append]
    show decVal (List.replicate (4 - (goFormatNat n).length) '0' ++ (goFormatNat n).data) = n
    rw [decVal, decValAux_append, decValAux_replicate_zero]
    exact hbase
  · rw [if_neg hlen]
    exact hbase

theorem goPad4_inj {m n : Nat} (h : (goPad4 m).data = (goPad4 n).data) : m = n := by
  have := congrArg decVal h
  rwa [decVal_goPad4, decVal_goPad4] at this

theorem sectionFileFormat_inj : Function.Injective sectionFileFormat := by
  intro m n h
  have hd := congrArg String.data h
  simp only [sectionFileFormat, string_data_append] at hd
  exact goPad4_inj (List.append_cancel_left (List.append_cancel_right hd))

/- ### Helper lemmas: the section-name generation loop -/

/-- The candidate names are pairwise distinct, so with only n section
filenames in use some index in 1..n+1 yields a free name. -/
theorem exists_free_section_index (sections : List EpubSection) :
    ∃ j, 1 ≤ j ∧ j < sections.length + 2 ∧
      sections.any (fun s => s.filename == sectionFileFormat j) = false := by
  by_contra hcon
  push_neg at hcon
  have htaken : ∀ j, 1 ≤ j → j < sections.length + 2 →
      sectionFileFormat j ∈ sections.map (fun s => s.filename) := by
    intro j h1 h2
    have := eq_true_of_ne_false (hcon j h1 h2)
    rw [List.any_eq_true] at this
    obtain ⟨s, hs, heq⟩ := this
    rw [beq_iff_eq] at heq
    exact List.mem_map.mpr ⟨s, hs, heq⟩
  set cands := (List.range (sections.length + 1)).map (fun k => sectionFileFormat (k + 1)) with hcands
  have hnodup : cands.Nodup := by
    refine List.Nodup.map ?_ (List.nodup_range _)
    intro a b hab
    have := sectionFileFormat_inj hab
    omega
  have hsub : cands ⊆ sections.map (fun s => s.filename) := by
    intro x hx
    rw [hcands, List.mem_map] at hx
    obtain ⟨k, hk, rfl⟩ := hx
    rw [List.mem_range] at hk
    exact htaken (k + 1) (by omega) (by omega)
  have hle := (List.subperm_of_subset hnodup hsub).length_le
  rw [hcands] at hle
  simp at hle

/-- If a free index is available within the fuel window, the generation loop
returns a free name. -/
theorem generateSectionFilename_some (sections : List EpubSection) :
    ∀ (fuel start : Nat),
      (∃ j, start ≤ j ∧ j < start + fuel ∧
        sections.any (fun s => s.filename == sectionFileFormat j) = false) →
      ∃ name, generateSectionFilename sections fuel start = some name ∧
        sections.any (fun s => s.filename == name) = false := by
  intro fuel
  induction fuel with
  | zero =>
    intro start h
    obtain ⟨j, h1, h2, _⟩ := h
    omega
  | succ fuel ih =>
    intro start h
    obtain ⟨j, h1, h2, hfree⟩ := h
    by_cases hc : sections.any (fun s => s.filename == sectionFileFormat start) = true
    · have hj : start + 1 ≤ j := by
        rcases Nat.eq_or_lt_of_le h1 with heq | hlt
        · subst heq
          rw [hc] at hfree
          cases hfree
        · omega
      obtain ⟨name, hgen, hnamefree⟩ := ih (start + 1) ⟨j, hj, by omega, hfree⟩
      refine ⟨name, ?_, hnamefree⟩
      simpa [generateSectionFilename, hc] using hgen
    · rw [Bool.not_eq_true] at hc
      refine ⟨sectionFileFormat start, ?_, hc⟩
      simp [generateSectionFilename, hc]

/-- Whatever the loop returns is the name of the least free index at or
after the starting index. -/
theorem generateSectionFilename_least (sections : List EpubSection) :
    ∀ (fuel start : Nat) (name : String),
      generateSectionFilename sections fuel start = some name →
      ∃ i, start ≤ i ∧ name = sectionFileFormat i ∧
        sections.any (fun s => s.filename == sectionFileFormat i) = false ∧
        ∀ j, start ≤ j → j < i →
          sections.any (fun s => s.filename == sectionFileFormat j) = true := by
  intro fuel
  induction fuel with
  | zero => intro start name h; cases h
  | succ fuel ih =>
    intro start name h
    by_cases hc : sections.any (fun s => s.filename == sectionFileFormat start) = true
    · rw [show generateSectionFilename sections (fuel + 1) start =
          generateSectionFilename sections fuel (start + 1) by
        simp [generateSectionFilename, hc]] at h
      obtain ⟨i, hi1, hi2, hi3, hi4⟩ := ih (start + 1) name h
      refine ⟨i, by omega, hi2, hi3, ?_⟩
      intro j hj1 hj2
      rcases Nat.eq_or_lt_of_le hj1 with heq | hlt
      · subst heq
        exact hc
      · exact hi4 j hlt hj2
    · rw [Bool.not_eq_true] at hc
      have hname : name = sectionFileFormat start := by
        have : generateSectionFilename sections (fuel + 1) start = some (sectionFileFormat start) := by
          simp [generateSectionFilename, hc]
        rw [this] at h
        exact (Option.some.injEq _ _ ▸ h).symm
      exact ⟨start, le_refl _, hname, hc, fun j hj1 hj2 => by omega⟩

/- ### Helper lemmas: paths -/

theorem plainSeg_spec {s : String} (h : plainSeg s = true) :
    s.data ≠ [] ∧ (∀ c ∈ s.data, c ≠ '/') ∧ s.data ≠ ['.'] ∧ s.data ≠ ['.', '.'] := by
  unfold plainSeg at h
  simp only [Bool.and_eq_true, Bool.not_eq_true', beq_eq_false_iff_ne, ne_eq,
    List.all_eq_true, Bool.not_eq_true, beq_eq_false_iff_ne] at h
  obtain ⟨⟨⟨h1, h2⟩, h3⟩, h4⟩ := h
  refine ⟨?_, fun c hc => h2 c hc, ?_, ?_⟩
  · intro hd
    exact h1 (string_eq_of_data hd)
  · intro hd
    exact h3 (string_eq_of_data hd)
  · intro hd
    exact h4 (string_eq_of_data hd)

theorem splitSlash_no_slash : ∀ {xs : List Char}, (∀ c ∈ xs, c ≠ '/') → splitSlash xs = [xs] := by
  intro xs
  induction xs with
  | nil => intro _; rfl
  | cons c cs ih =>
    intro h
    have hc : ¬(c = '/') := h c (by simp)
    have hcs := ih (fun d hd => h d (by simp [hd]))
    simp only [splitSlash, if_neg hc, hcs]

theorem splitSlash_append : ∀ {xs : List Char} (ys : List Char), (∀ c ∈ xs, c ≠ '/') →
    splitSlash (xs ++ '/' :: ys) = xs :: splitSlash ys := by
  intro xs
  induction xs with
  | nil =>
    intro ys _
    simp [splitSlash]
  | cons c cs ih =>
    intro ys h
    have hc : ¬(c = '/') := h c (by simp)
    have hcs := ih ys (fun d hd => h d (by simp [hd]))
    simp only [List.cons_append, splitSlash, if_neg hc]
    rw [show cs.append ('/' :: ys) = cs ++ '/' :: ys from rfl, hcs]

theorem takeWhile_append_stop {p : Char → Bool} : ∀ {xs : List Char} (y : Char) (ys : List Char),
    (∀ x ∈ xs, p x = true) → p y = false →
    ((xs ++ y :: ys).takeWhile p) = xs := by
  intro xs
  induction xs with
  | nil =>
    intro y ys _ hy
    simp [List.takeWhile_cons, hy]
  | cons c cs ih =>
    intro y ys hall hy
    have hc : p c = true := hall c (by simp)
    simp [List.takeWhile_cons, hc, ih y ys (fun d hd => hall d (by simp [hd])) hy]

/-- filepath.Base of anything of the form p ++ "/" ++ g, for a final element
g that is nonempty and slash-free, is g. -/
theorem goFilepathBase_append {g : String} (p : String)
    (hne : g.data ≠ []) (hns : ∀ c ∈ g.data, c ≠ '/') :
    goFilepathBase (p ++ "/" ++ g) = g := by
  have hdata : (p ++ "/" ++ g).data = p.data ++ '/' :: g.data := by
    simp [string_data_append]
  have hnonempty : ¬(p ++ "/" ++ g) = "" := by
    intro hcon
    have := congrArg String.data hcon
    rw [hdata] at this
    simp at this
  obtain ⟨c, cs, hrev⟩ : ∃ c cs, g.data.reverse = c :: cs := by
    cases hr : g.data.reverse with
    | nil =>
      exact absurd (by simpa using congrArg List.reverse hr) hne
    | cons c cs => exact ⟨c, cs, rfl⟩
  have hcmem : c ∈ g.data := by
    have : c ∈ g.data.reverse := by rw [hrev]; simp
    simpa using this
  have hcslash : ¬(c = '/') := hns c hcmem
  have hrevdata : (p ++ "/" ++ g).data.reverse = c :: (cs ++ '/' :: p.data.reverse) := by
    rw [hdata]
    simp [List.reverse_append, hrev]
  unfold goFilepathBase
  rw [if_neg hnonempty, hrevdata]
  have hdrop : (c :: (cs ++ '/' :: p.data.reverse)).dropWhile (· = '/') =
      c :: (cs ++ '/' :: p.data.reverse) := by
    rw [List.dropWhile_cons]
    simp [hcslash]
  rw [hdrop]
  rw [if_neg (by simp)]
  have hall : ∀ x ∈ c :: cs, (x ≠ '/' : Bool) = true := by
    intro x hx
    have : x ∈ g.data.reverse := by rw [hrev]; exact hx
    have : x ∈ g.data := by simpa using this
    simp [hns x this]
  have htake : ((c :: (cs ++ '/' :: p.data.reverse)).takeWhile (· ≠ '/')) = c :: cs := by
    have := @takeWhile_append_stop (fun x => decide (x ≠ '/')) (c :: cs) '/' p.data.reverse
      hall (by simp)
    simpa using this
  rw [htake]
  apply string_eq_of_data
  show (c :: cs).reverse = g.data
  rw [← hrev]
  simp

theorem cleanStep_push {seg : List Char} (rooted : Bool) (stack : List (List Char))
    (h1 : seg ≠ []) (h2 : seg ≠ ['.']) (h3 : seg ≠ ['.', '.']) :
    cleanStep rooted stack seg = seg :: stack := by
  unfold cleanStep
  rw [if_neg (by simp [h1, h2]), if_neg h3]

/-- path.Join of "..", a plain folder and a plain name neither drops nor
reorders anything: the result is the literal "../folder/name". -/
theorem goPathJoin_dotdot {f g : String} (hf : plainSeg f = true) (hg : plainSeg g = true) :
    goPathJoin ["..", f, g] = ".." ++ "/" ++ (f ++ "/" ++ g) := by
  obtain ⟨hf1, hf2, hf3, hf4⟩ := plainSeg_spec hf
  obtain ⟨hg1, hg2, hg3, hg4⟩ := plainSeg_spec hg
  have hjoin : goStringsJoin "/" [".."] = ".." := rfl
  have hjoin3 : goStringsJoin "/" ["..", f, g] = ".." ++ "/" ++ (f ++ "/" ++ g) := by
    show ".." ++ "/" ++ goStringsJoin "/" [f, g] = ".." ++ "/" ++ (f ++ "/" ++ g)
    rfl
  show (if (".." : String) = "" then goPathJoin [f, g]
    else goPathClean (goStringsJoin "/" ["..", f, g])) = ".." ++ "/" ++ (f ++ "/" ++ g)
  rw [if_neg (by decide), hjoin3]
  set t := ".." ++ "/" ++ (f ++ "/" ++ g) with ht
  have hdata : t.data = ['.', '.'] ++ '/' :: (f.data ++ '/' :: g.data) := by
    rw [ht]
    simp [string_data_append]
  have hnonempty : ¬t = "" := by
    intro hcon
    have := congrArg String.data hcon
    rw [hdata] at this
    simp at this
  have hsplit : splitSlash t.data = [['.', '.'], f.data, g.data] := by
    rw [hdata, splitSlash_append _ (by decide), splitSlash_append _ hf2,
      splitSlash_no_slash hg2]
  have hroot : (t.data.head? == some '/') = false := by
    rw [hdata]
    rfl
  unfold goPathClean
  rw [if_neg hnonempty, hroot, hsplit]
  show (if (goStringsJoin "/"
      (((cleanStep false (cleanStep false (cleanStep false [] ['.', '.']) f.data) g.data).reverse).map
        String.mk)) = "" then "."
    else goStringsJoin "/"
      (((cleanStep false (cleanStep false (cleanStep false [] ['.', '.']) f.data) g.data).reverse).map
        String.mk)) = t
  have hstep1 : cleanStep false [] ['.', '.'] = [['.', '.']] := by decide
  have hstep2 : cleanStep false [['.', '.']] f.data = [f.data, ['.', '.']] :=
    cleanStep_push false _ hf1 hf3 hf4
  have hstep3 : cleanStep false [f.data, ['.', '.']] g.data = [g.data, f.data, ['.', '.']] :=
    cleanStep_push false _ hg1 hg3 hg4
  rw [hstep1, hstep2, hstep3]
  have hmkf : String.mk f.data = f := rfl
  have hmkg : String.mk g.data = g := rfl
  have hbody : goStringsJoin "/" [String.mk ['.', '.'], String.mk f.data, String.mk g.data] = t := by
    rw [hmkf, hmkg]
    show ".." ++ "/" ++ goStringsJoin "/" [f, g] = t
    rfl
  show (if goStringsJoin "/" [String.mk ['.', '.'], String.mk f.data, String.mk g.data] = ""
    then "." else goStringsJoin "/" [String.mk ['.', '.'], String.mk f.data, String.mk g.data]) = t
  rw [hbody]
  rw [if_neg hnonempty]

/-- Reassociation bridge between the join shape and the base-lemma shape. -/
theorem dotdot_reassoc (f g : String) :
    ".." ++ "/" ++ (f ++ "/" ++ g) = (".." ++ "/" ++ f) ++ "/" ++ g :=
  string_eq_of_data (by simp [string_data_append])

/-- filepath.Base of the path "../folder/name" returned for a plain name is
the name itself. -/
theorem goFilepathBase_dotdot {f g : String} (hg : plainSeg g = true) :
    goFilepathBase (".." ++ "/" ++ (f ++ "/" ++ g)) = g := by
  obtain ⟨hg1, hg2, _, _⟩ := plainSeg_spec hg
  rw [dotdot_reassoc]
  exact goFilepathBase_append _ hg1 hg2

/- ### Helper lemmas: media maps and addMedia -/

theorem mmLookup_append_single {m : MediaMap} {k v : String} (h : mmContains m k = false) :
    mmLookup (m ++ [(k, v)]) k = some v := by
  induction m with
  | nil => simp [mmLookup, List.find?]
  | cons p ps ih =>
    have h2 : (p.1 == k) = false ∧ mmContains ps k = false := by
      simpa [mmContains, List.any_cons, Bool.or_eq_false_iff] using h
    rw [List.cons_append]
    show mmLookup (p :: (ps ++ [(k, v)])) k = some v
    simp only [mmLookup, List.find?_cons, h2.1]
    exact ih h2.2

theorem mmContains_of_mmLookup {m : MediaMap} {k v : String} (h : mmLookup m k = some v) :
    mmContains m k = true := by
  induction m with
  | nil => simp [mmLookup] at h
  | cons p ps ih =>
    by_cases hp : (p.1 == k) = true
    · simp [mmContains, List.any_cons, hp]
    · rw [Bool.not_eq_true] at hp
      have hps : mmLookup ps k = some v := by
        simpa [mmLookup, List.find?_cons, hp] using h
      have hrest := ih hps
      unfold mmContains at hrest
      show (p :: ps).any (fun kv => kv.1 == k) = true
      rw [List.any_cons, hrest, Bool.or_true]

/-- Evaluation of addMedia when the existence check fails. -/
theorem addMedia_check_some {check : String → Option String} {src e : String}
    (f : String) (fmtFn : Nat → String → String) (folder : String) (m : MediaMap)
    (hchk : check src = some e) :
    addMedia check src f fmtFn folder m = (.error (.fileRetrieval src e), m) := by
  unfold addMedia
  rw [hchk]

/-- Evaluation of addMedia when the existence check succeeds: the check
result disappears and only the naming logic remains. -/
theorem addMedia_check_none {check : String → Option String} {src : String}
    (f : String) (fmtFn : Nat → String → String) (folder : String) (m : MediaMap)
    (hchk : check src = none) :
    addMedia check src f fmtFn folder m =
      (if mmContains m (resolveMediaName src f fmtFn m) = true then
        (.error (.filenameAlreadyUsed (resolveMediaName src f fmtFn m)), m)
      else (.ok (goPathJoin ["..", folder, resolveMediaName src f fmtFn m]),
        mmInsert m (resolveMediaName src f fmtFn m) src)) := by
  unfold addMedia
  rw [hchk]

/-- An explicit nonempty requested filename resolves to itself. -/
theorem resolveMediaName_explicit {src f : String} (fmtFn : Nat → String → String)
    (m : MediaMap) (hf : ¬f = "") : resolveMediaName src f fmtFn m = f := by
  unfold resolveMediaName
  rw [if_neg hf]

/-- Evaluation of addMedia for an explicit, still-free filename. -/
theorem addMedia_explicit_free {check : String → Option String} {src f : String}
    (fmtFn : Nat → String → String) (folder : String) (m : MediaMap)
    (hchk : check src = none) (hf : ¬f = "") (hfree : mmContains m f = false) :
    addMedia check src f fmtFn folder m =
      (.ok (goPathJoin ["..", folder, f]), m ++ [(f, src)]) := by
  rw [addMedia_check_none f fmtFn folder m hchk, resolveMediaName_explicit fmtFn m hf]
  rw [if_neg (show ¬mmContains m f = true by rw [hfree]; exact Bool.false_ne_true)]
  unfold mmInsert
  rw [if_neg (show ¬mmContains m f = true by rw [hfree]; exact Bool.false_ne_true)]

/-- An empty requested filename resolves through the base-name/format
logic. -/
theorem resolveMediaName_auto {src : String} (fmtFn : Nat → String → String) (m : MediaMap) :
    resolveMediaName src "" fmtFn m =
      (if 255 < (goFilepathBase src).utf8ByteSize ∨
          goFsValidPath (goFilepathBase src) = false ∨
          mmContains m (goFilepathBase src) = true then
        fmtFn (m.length + 1) (goToLower (goFilepathExt src))
      else goFilepathBase src) := by
  unfold resolveMediaName
  rw [if_pos rfl]

/-- Auto-naming with an unusable base candidate and the synthesized slot
taken: the add fails. -/
theorem addMedia_auto_gen_taken {check : String → Option String} {src : String}
    (fmtFn : Nat → String → String) (folder : String) (m : MediaMap)
    (hchk : check src = none)
    (hbad : 255 < (goFilepathBase src).utf8ByteSize ∨
      goFsValidPath (goFilepathBase src) = false ∨
      mmContains m (goFilepathBase src) = true)
    (htaken : mmContains m (fmtFn (m.length + 1) (goToLower (goFilepathExt src))) = true) :
    addMedia check src "" fmtFn folder m =
      (.error (.filenameAlreadyUsed (fmtFn (m.length + 1) (goToLower (goFilepathExt src)))), m) := by
  rw [addMedia_check_none "" fmtFn folder m hchk, resolveMediaName_auto fmtFn m,
    if_pos hbad, if_pos htaken]

/-- Auto-naming with an unusable base candidate but a free synthesized
slot: the add succeeds under the synthesized name. -/
theorem addMedia_auto_gen_free {check : String → Option String} {src : String}
    (fmtFn : Nat → String → String) (folder : String) (m : MediaMap)
    (hchk : check src = none)
    (hbad : 255 < (goFilepathBase src).utf8ByteSize ∨
      goFsValidPath (goFilepathBase src) = false ∨
      mmContains m (goFilepathBase src) = true)
    (hfree : mmContains m (fmtFn (m.length + 1) (goToLower (goFilepathExt src))) = false) :
    addMedia check src "" fmtFn folder m =
      (.ok (goPathJoin ["..", folder, fmtFn (m.length + 1) (goToLower (goFilepathExt src))]),
       m ++ [(fmtFn (m.length + 1) (goToLower (goFilepathExt src)), src)]) := by
  rw [addMedia_check_none "" fmtFn folder m hchk, resolveMediaName_auto fmtFn m, if_pos hbad]
  rw [if_neg (show ¬mmContains m _ = true by rw [hfree]; exact Bool.false_ne_true)]
  unfold mmInsert
  rw [if_neg (show ¬mmContains m _ = true by rw [hfree]; exact Bool.false_ne_true)]

/-- Auto-naming with a usable base candidate: the add succeeds under the
source's base name. -/
theorem addMedia_auto_base {check : String → Option String} {src : String}
    (fmtFn : Nat → String → String) (folder : String) (m : MediaMap)
    (hchk : check src = none)
    (hgood : ¬(255 < (goFilepathBase src).utf8ByteSize ∨
      goFsValidPath (goFilepathBase src) = false ∨
      mmContains m (goFilepathBase src) = true)) :
    addMedia check src "" fmtFn folder m =
      (.ok (goPathJoin ["..", folder, goFilepathBase src]),
       m ++ [(goFilepathBase src, src)]) := by
  have hfree : ¬mmContains m (goFilepathBase src) = true := fun hc =>
    hgood (Or.inr (Or.inr hc))
  rw [addMedia_check_none "" fmtFn folder m hchk, resolveMediaName_auto fmtFn m,
    if_neg hgood]
  rw [if_neg hfree]
  unfold mmInsert
  rw [if_neg hfree]

/- ### Helper lemmas: the cover manager -/

/-- Evaluation of the cover-stylesheet step when no user stylesheet is given
and the default cover.css slot is free: the default CSS is registered under
cover.css on the first attempt. -/
theorem setCoverCSSStep_default {check : String → Option String} {encode : String → String}
    {css : MediaMap} (prevTempFile : String)
    (henc : check (encode defaultCoverCSSContent) = none)
    (hfree : mmContains css defaultCoverCSSFilename = false) :
    setCoverCSSStep check encode css prevTempFile "" =
      some (goPathJoin ["..", CSSFolderName, defaultCoverCSSFilename],
        encode defaultCoverCSSContent,
        css ++ [(defaultCoverCSSFilename, encode defaultCoverCSSContent)]) := by
  unfold setCoverCSSStep
  rw [if_pos rfl]
  rw [addMedia_explicit_free cssFileFormat CSSFolderName css henc (by decide) hfree]

/-- Evaluation of the cover-section step when the default cover.xhtml slot
is free: the section is appended on the first attempt. -/
theorem setCoverSectionStep_default {coverBody cssPath : String} {sections : List EpubSection}
    (hfree : sections.any (fun s => s.filename == defaultCoverXhtmlFilename) = false) :
    setCoverSectionStep coverBody cssPath sections =
      some (defaultCoverXhtmlFilename, sections ++
        [{ filename := defaultCoverXhtmlFilename,
           xhtml :=
             (if cssPath ≠ "" then
               xhtmlSetCSS (xhtmlSetTitle (newXhtml coverBody) "") cssPath
             else xhtmlSetTitle (newXhtml coverBody) "") }]) := by
  unfold setCoverSectionStep
  rw [show addSection coverBody "" defaultCoverXhtmlFilename cssPath sections =
      addSectionCommit coverBody "" defaultCoverXhtmlFilename cssPath sections by
    unfold addSection
    rw [if_neg (show ¬defaultCoverXhtmlFilename = "" by decide)]
    rw [if_neg (by rw [hfree]; exact Bool.false_ne_true)]]
  rfl

/-- Full evaluation of SetCover with an image path of the canonical
"../images/<name>" form, default stylesheet, and free default slots. -/
theorem setCover_eval (check : String → Option String) (encode : String → String)
    (e : Epub) (g : String) (hg : plainSeg g = true)
    (henc : check (encode defaultCoverCSSContent) = none)
    (hcss : mmContains (setCoverRemovePrev e).css defaultCoverCSSFilename = false)
    (hsec : ((setCoverRemovePrev e).sections.any
      (fun s => s.filename == defaultCoverXhtmlFilename)) = false) :
    setCover check encode e (".." ++ "/" ++ (ImageFolderName ++ "/" ++ g)) "" =
      some (coverInstalled encode e g) := by
  unfold setCover coverInstalled
  rw [setCoverCSSStep_default (setCoverRemovePrev e).cover.cssTempFile henc hcss]
  simp only [goFilepathBase_dotdot hg, setCoverSectionStep_default hsec]
  rfl

/- ### Claim theorems -/

/-- Claim C1 (evidence of the divergence): calling the modified-timestamp
setter twice with two different timestamps leaves TWO dcterms:modified meta
entries instead of replacing the first in place — updateMeta replaces an
entry only when the new entry equals the existing one in every field, data
included, so the claimed (refines, property)-identity upsert never fires for
a changed value. -/
theorem claim_c1_setModified_twice_duplicates :
    ((pkgSetModified (pkgSetModified NewPkg "2011-01-01T12:00:00Z")
        "2012-01-01T12:00:00Z").metadata.meta =
      [{ property := PropertyModified, data := "2011-01-01T12:00:00Z" },
       { property := PropertyModified, data := "2012-01-01T12:00:00Z" }]) ∧
    ((pkgSetModified (pkgSetModified NewPkg "2011-01-01T12:00:00Z")
        "2012-01-01T12:00:00Z").metadata.meta.countP
      (fun mm => mm.property == PropertyModified)) = 2 := by
  exact ⟨rfl, rfl⟩

/-- Claim C3 (evidence of the divergence): AddIdentifier does append the
identifier together with a linked meta entry whose refines is "#<id>" for
the assigned id, but on a fresh package that id is "creator0" (pkgCreatorID
plus the creator count), and the package's unique-identifier attribute stays
"pub-id", which no identifier carries. -/
theorem claim_c3_addIdentifier_id_not_pub_id (v s t : String) :
    ((pkgAddIdentifier NewPkg v s t).metadata.identifier =
      [{ id := "creator0", data := v }]) ∧
    ((pkgAddIdentifier NewPkg v s t).metadata.meta =
      [{ refines := "#creator0", property := PropertyIdentifierType, scheme := s,
         id := "creator0", data := t }]) ∧
    ((pkgAddIdentifier NewPkg v s t).uniqueIdentifier = pkgIdentifierID) ∧
    (∀ i ∈ (pkgAddIdentifier NewPkg v s t).metadata.identifier, i.id ≠ pkgIdentifierID) := by
  have hid : pkgCreatorID ++ goFormatNat 0 = "creator0" := by decide
  have href : "#" ++ (pkgCreatorID ++ goFormatNat 0) = "#creator0" := by decide
  have h1 : (pkgAddIdentifier NewPkg v s t).metadata.identifier =
      [{ id := "creator0", data := v }] := by
    show [] ++ [({ id := pkgCreatorID ++ goFormatNat 0, data := v } : PkgIdentifier)] =
      [{ id := "creator0", data := v }]
    rw [List.nil_append, hid]
  refine ⟨h1, ?_, rfl, ?_⟩
  · show updateMeta []
      { refines := "#" ++ (pkgCreatorID ++ goFormatNat 0), property := PropertyIdentifierType,
        scheme := s, id := pkgCreatorID ++ goFormatNat 0, data := t } =
      [{ refines := "#creator0", property := PropertyIdentifierType, scheme := s,
         id := "creator0", data := t }]
    rw [updateMeta, href, hid]
  · intro i hi
    rw [h1, List.mem_singleton] at hi
    rw [hi]
    show ("creator0" : String) ≠ pkgIdentifierID
    decide

/-- Claim C4 (evidence of the divergence): AddContributor appends its entry
to the CREATOR sequence, exactly like AddAuthor, and leaves the contributor
sequence empty; only the linked marc:relators role meta entry is as
described. -/
theorem claim_c4_addContributor_appends_creator (n r : String) :
    ((pkgAddContributor NewPkg n r).metadata.contributor = []) ∧
    ((pkgAddContributor NewPkg n r).metadata.creator =
      [{ id := "creator0", data := n }]) ∧
    ((pkgAddContributor NewPkg n r).metadata.meta =
      [{ refines := "#creator0", property := PropertyRole, scheme := SchemeMARCRelators,
         id := "creator0", data := r }]) := by
  have hid : pkgCreatorID ++ goFormatNat 0 = "creator0" := by decide
  have href : "#" ++ (pkgCreatorID ++ goFormatNat 0) = "#creator0" := by decide
  refine ⟨rfl, ?_, ?_⟩
  · show [] ++ [({ id := pkgCreatorID ++ goFormatNat 0, data := n } : PkgCreator)] =
      [{ id := "creator0", data := n }]
    rw [List.nil_append, hid]
  · show updateMeta []
      { refines := "#" ++ (pkgCreatorID ++ goFormatNat 0), property := PropertyRole,
        scheme := SchemeMARCRelators, id := pkgCreatorID ++ goFormatNat 0, data := r } =
      [{ refines := "#creator0", property := PropertyRole, scheme := SchemeMARCRelators,
         id := "creator0", data := r }]
    rw [updateMeta, href, hid]

/-- Claim C5: when the existence check of the fetch collaborator fails,
addMedia returns a FileRetrievalError wrapping the source and the underlying
error, and the class mapping is returned unchanged. -/
theorem claim_c5_fileRetrieval_no_mutation (check : String → Option String)
    (src f : String) (fmtFn : Nat → String → String) (folder : String)
    (m : MediaMap) (e : String) (hchk : check src = some e) :
    addMedia check src f fmtFn folder m = (.error (.fileRetrieval src e), m) :=
  addMedia_check_some f fmtFn folder m hchk

/-- Witness for claim C5 at a concrete input. -/
theorem claim_c5_fileRetrieval_no_mutation_witness :
    ((fun _ => some "no such file" : String → Option String) "/sbin/thisShouldFail" =
      some "no such file") ∧
    addMedia (fun _ => some "no such file") "/sbin/thisShouldFail" "style.css"
        cssFileFormat CSSFolderName [] =
      (.error (.fileRetrieval "/sbin/thisShouldFail" "no such file"), []) :=
  ⟨rfl, claim_c5_fileRetrieval_no_mutation (fun _ => some "no such file")
    "/sbin/thisShouldFail" "style.css" cssFileFormat CSSFolderName [] "no such file" rfl⟩

/-- Claim C7: a non-empty requested filename that is already a key of the
class mapping makes addMedia fail with FilenameAlreadyUsedError carrying
that filename, and the mapping comes back unchanged, still holding the first
source under that key. -/
theorem claim_c7_duplicate_explicit_filename (check : String → Option String)
    (src f s₀ : String) (fmtFn : Nat → String → String) (folder : String)
    (m : MediaMap) (hchk : check src = none) (hf : ¬f = "")
    (hlookup : mmLookup m f = some s₀) :
    addMedia check src f fmtFn folder m = (.error (.filenameAlreadyUsed f), m) ∧
    mmLookup (addMedia check src f fmtFn folder m).2 f = some s₀ := by
  have hcont := mmContains_of_mmLookup hlookup
  have heq : addMedia check src f fmtFn folder m = (.error (.filenameAlreadyUsed f), m) := by
    rw [addMedia_check_none f fmtFn folder m hchk, resolveMediaName_explicit fmtFn m hf]
    rw [if_pos hcont]
  exact ⟨heq, by rw [heq]; exact hlookup⟩

/-- Witness for claim C7 at a concrete input: the end-to-end double add of
"pic.png". -/
theorem claim_c7_duplicate_explicit_filename_witness :
    ((fun _ => none : String → Option String) "second-source" = none) ∧
    (¬("pic.png" : String) = "") ∧
    (mmLookup [("pic.png", "first-source")] "pic.png" = some "first-source") ∧
    (addMedia (fun _ => none) "second-source" "pic.png" imageFileFormat ImageFolderName
        [("pic.png", "first-source")] =
      (.error (.filenameAlreadyUsed "pic.png"), [("pic.png", "first-source")]) ∧
     mmLookup (addMedia (fun _ => none) "second-source" "pic.png" imageFileFormat
        ImageFolderName [("pic.png", "first-source")]).2 "pic.png" = some "first-source") :=
  ⟨rfl, by decide, rfl,
    claim_c7_duplicate_explicit_filename (fun _ => none) "second-source" "pic.png"
      "first-source" imageFileFormat ImageFolderName [("pic.png", "first-source")]
      rfl (by decide) rfl⟩

/-- Claim C2 counterexample: after AddImage with the explicit filename
"image0002.png", an auto-named AddImage whose source base name is occupied
synthesizes the count-based name image0002.png (map size 1 plus 1) and fails
with FilenameAlreadyUsedError — auto-generation does NOT always find a free
slot. -/
theorem claim_c2_counterexample :
    (addMedia (fun _ => none) "first-source" "image0002.png" imageFileFormat
        ImageFolderName [] =
      (.ok "../images/image0002.png", [("image0002.png", "first-source")])) ∧
    (addMedia (fun _ => none) "photos/image0002.png" "" imageFileFormat ImageFolderName
        [("image0002.png", "first-source")] =
      (.error (.filenameAlreadyUsed "image0002.png"), [("image0002.png", "first-source")])) :=
  ⟨rfl, rfl⟩

/-- Claim C2 amended: for an empty requested filename (with a passing
existence check), the add fails — necessarily with FilenameAlreadyUsedError
for the synthesized count-based name — exactly when the base-name candidate
is unusable (too long, invalid, or taken) AND the synthesized name is
already a key of the class mapping, which an explicitly-named earlier add
can arrange; in every other situation the auto-generated add succeeds. -/
theorem claim_c2_amended (check : String → Option String) (src : String)
    (fmtFn : Nat → String → String) (folder : String) (m : MediaMap)
    (hchk : check src = none) :
    (((255 < (goFilepathBase src).utf8ByteSize ∨
        goFsValidPath (goFilepathBase src) = false ∨
        mmContains m (goFilepathBase src) = true) ∧
      mmContains m (fmtFn (m.length + 1) (goToLower (goFilepathExt src))) = true) →
      addMedia check src "" fmtFn folder m =
        (.error (.filenameAlreadyUsed (fmtFn (m.length + 1) (goToLower (goFilepathExt src)))),
         m)) ∧
    (¬((255 < (goFilepathBase src).utf8ByteSize ∨
        goFsValidPath (goFilepathBase src) = false ∨
        mmContains m (goFilepathBase src) = true) ∧
      mmContains m (fmtFn (m.length + 1) (goToLower (goFilepathExt src))) = true) →
      ∃ ret m', addMedia check src "" fmtFn folder m = (.ok ret, m')) := by
  constructor
  · intro h
    exact addMedia_auto_gen_taken fmtFn folder m hchk h.1 h.2
  · intro h
    by_cases hbad : 255 < (goFilepathBase src).utf8ByteSize ∨
        goFsValidPath (goFilepathBase src) = false ∨
        mmContains m (goFilepathBase src) = true
    · have hfree : mmContains m (fmtFn (m.length + 1) (goToLower (goFilepathExt src))) = false := by
        cases hc : mmContains m (fmtFn (m.length + 1) (goToLower (goFilepathExt src))) with
        | false => rfl
        | true => exact absurd ⟨hbad, hc⟩ h
      exact ⟨_, _, addMedia_auto_gen_free fmtFn folder m hchk hbad hfree⟩
    · exact ⟨_, _, addMedia_auto_base fmtFn folder m hchk hbad⟩

/-- Witness for claim C2 amended at a concrete input (failing direction of
the equivalence, at the counterexample state). -/
theorem claim_c2_amended_witness :
    ((fun _ => none : String → Option String) "photos/image0002.png" = none) ∧
    (((255 < (goFilepathBase "photos/image0002.png").utf8ByteSize ∨
        goFsValidPath (goFilepathBase "photos/image0002.png") = false ∨
        mmContains [("image0002.png", "first-source")]
          (goFilepathBase "photos/image0002.png") = true) ∧
      mmContains [("image0002.png", "first-source")]
        (imageFileFormat (List.length [("image0002.png", "first-source")] + 1)
          (goToLower (goFilepathExt "photos/image0002.png"))) = true) →
      addMedia (fun _ => none) "photos/image0002.png" "" imageFileFormat ImageFolderName
        [("image0002.png", "first-source")] =
      (.error (.filenameAlreadyUsed
        (imageFileFormat (List.length [("image0002.png", "first-source")] + 1)
          (goToLower (goFilepathExt "photos/image0002.png")))),
       [("image0002.png", "first-source")])) :=
  ⟨rfl, (claim_c2_amended (fun _ => none) "photos/image0002.png" imageFileFormat
    ImageFolderName [("image0002.png", "first-source")] rfl).1⟩

/-- Claim C8 counterexample: a successful add whose explicit filename
contains a ".." element returns the lexically cleaned join "../x", not the
literal "../images/../x" the claim promises. -/
theorem claim_c8_counterexample :
    (addMedia (fun _ => none) "srcA" "../x" imageFileFormat ImageFolderName [] =
      (.ok "../x", [("../x", "srcA")])) ∧
    ¬("../x" : String) = "../images/../x" :=
  ⟨rfl, by decide⟩

/-- Claim C8 amended: every successful addMedia registers the resolved name
with its source in the class mapping and returns the path.Join of "..", the
class folder and the resolved name — which equals the literal
"../<folder>/<name>" whenever the resolved name is a plain path element (as
every well-formed filename is), but is the cleaned form otherwise. -/
theorem claim_c8_amended (check : String → Option String) (src f : String)
    (fmtFn : Nat → String → String) (folder ret : String) (m m' : MediaMap)
    (h : addMedia check src f fmtFn folder m = (.ok ret, m')) :
    ∃ name, mmLookup m' name = some src ∧
      ret = goPathJoin ["..", folder, name] ∧
      (plainSeg folder = true → plainSeg name = true →
        ret = ".." ++ "/" ++ (folder ++ "/" ++ name)) := by
  cases hchk : check src with
  | some e =>
    rw [addMedia_check_some f fmtFn folder m hchk] at h
    exact absurd (congrArg Prod.fst h) (by simp)
  | none =>
    rw [addMedia_check_none f fmtFn folder m hchk] at h
    by_cases hc : mmContains m (resolveMediaName src f fmtFn m) = true
    · rw [if_pos hc] at h
      exact absurd (congrArg Prod.fst h) (by simp)
    · rw [if_neg hc] at h
      have hfst : Except.ok (goPathJoin ["..", folder, resolveMediaName src f fmtFn m]) =
          (Except.ok ret : Except GoError String) := congrArg Prod.fst h
      injection hfst with hret
      have hsnd : mmInsert m (resolveMediaName src f fmtFn m) src = m' :=
        congrArg Prod.snd h
      have hcf : mmContains m (resolveMediaName src f fmtFn m) = false :=
        Bool.not_eq_true _ ▸ eq_false_of_ne_true hc
      refine ⟨resolveMediaName src f fmtFn m, ?_, hret.symm, ?_⟩
      · rw [← hsnd]
        unfold mmInsert
        rw [if_neg hc]
        exact mmLookup_append_single hcf
      · intro hfolder hname
        rw [← hret]
        exact goPathJoin_dotdot hfolder hname

/-- Witness for claim C8 amended at a concrete input. -/
theorem claim_c8_amended_witness :
    (addMedia (fun _ => none) "src" "pic.png" imageFileFormat ImageFolderName [] =
      (.ok "../images/pic.png", [("pic.png", "src")])) ∧
    (∃ name, mmLookup [("pic.png", "src")] name = some "src" ∧
      ("../images/pic.png" : String) = goPathJoin ["..", ImageFolderName, name] ∧
      (plainSeg ImageFolderName = true → plainSeg name = true →
        ("../images/pic.png" : String) = ".." ++ "/" ++ (ImageFolderName ++ "/" ++ name))) :=
  ⟨rfl, claim_c8_amended (fun _ => none) "src" "pic.png" imageFileFormat ImageFolderName
    "../images/pic.png" [] [("pic.png", "src")] rfl⟩

/-- Claim C6: adding a section with an empty requested filename always
succeeds; the generated name is section%04d.xhtml for the smallest index
starting from 1 whose name differs from every existing section filename, so
it never collides with any previously added section, auto-generated or
explicit, cover included. -/
theorem claim_c6_auto_section_filename (sections : List EpubSection)
    (body sectionTitle internalCSSPath : String) :
    ∃ name sections',
      addSection body sectionTitle "" internalCSSPath sections = (.ok name, sections') ∧
      (∀ s ∈ sections, s.filename ≠ name) ∧
      sections'.map (fun s => s.filename) = sections.map (fun s => s.filename) ++ [name] ∧
      ∃ i, 1 ≤ i ∧ name = sectionFileFormat i ∧
        ∀ j, 1 ≤ j → j < i → ∃ s ∈ sections, s.filename = sectionFileFormat j := by
  obtain ⟨j, hj1, hj2, hjf⟩ := exists_free_section_index sections
  obtain ⟨name, hgen, hfree⟩ :=
    generateSectionFilename_some sections (sections.length + 1) 1 ⟨j, hj1, by omega, hjf⟩
  obtain ⟨i, hi1, hi2, hi3, hi4⟩ :=
    generateSectionFilename_least sections (sections.length + 1) 1 name hgen
  refine ⟨name, (addSectionCommit body sectionTitle name internalCSSPath sections).2,
    ?_, ?_, ?_, i, hi1, hi2, ?_⟩
  · unfold addSection
    rw [if_pos rfl, hgen]
    rfl
  · intro s hs hcon
    have : sections.any (fun s => s.filename == name) = true :=
      List.any_eq_true.mpr ⟨s, hs, by simp [hcon]⟩
    rw [this] at hfree
    cases hfree
  · simp [addSectionCommit]
  · intro j' hj'1 hj'2
    have := hi4 j' hj'1 hj'2
    rw [List.any_eq_true] at this
    obtain ⟨s, hs, hb⟩ := this
    exact ⟨s, hs, by simpa using hb⟩

/-- Claim C9: from a fresh Epub, add two images under distinct plain
filenames and call SetCover twice with the two returned image paths; then
exactly one cover section remains (its body referencing the second image
path, which differs from the first), exactly one cover image resource and
exactly one cover CSS resource stay registered, and the first cover's image
entry and section are gone. -/
theorem claim_c9_setCover_twice (uuid title src1 src2 f1 f2 : String)
    (check : String → Option String) (encode : String → String)
    (hc1 : check src1 = none) (hc2 : check src2 = none)
    (henc : check (encode defaultCoverCSSContent) = none)
    (hp1 : plainSeg f1 = true) (hp2 : plainSeg f2 = true) (hne : f1 ≠ f2) :
    ∃ (p1 p2 : String) (e3 e4 : Epub),
      epubAddImage check (NewEpub uuid title) src1 f1 =
        (.ok p1, { NewEpub uuid title with images := [(f1, src1)] }) ∧
      epubAddImage check { NewEpub uuid title with images := [(f1, src1)] } src2 f2 =
        (.ok p2, { NewEpub uuid title with images := [(f1, src1), (f2, src2)] }) ∧
      setCover check encode { NewEpub uuid title with images := [(f1, src1), (f2, src2)] }
        p1 "" = some e3 ∧
      setCover check encode e3 p2 "" = some e4 ∧
      e4.sections.map (fun s => s.filename) = [defaultCoverXhtmlFilename] ∧
      e4.sections.map (fun s => s.xhtml.body) = [defaultCoverBody p2] ∧
      e4.images = [(f2, src2)] ∧
      e4.css.map (fun kv => kv.1) = [defaultCoverCSSFilename] ∧
      e4.cover.imageFilename = f2 ∧
      mmContains e4.images f1 = false ∧
      p1 ≠ p2 := by
  have hf1ne : ¬f1 = "" := fun hcon => (plainSeg_spec hp1).1 (by rw [hcon])
  have hf2ne : ¬f2 = "" := fun hcon => (plainSeg_spec hp2).1 (by rw [hcon])
  have hb12 : (f1 == f2) = false := beq_eq_false_iff_ne.mpr hne
  have hb21 : (f2 == f1) = false := beq_eq_false_iff_ne.mpr (Ne.symm hne)
  have hpath1 : goPathJoin ["..", ImageFolderName, f1] =
      ".." ++ "/" ++ (ImageFolderName ++ "/" ++ f1) := goPathJoin_dotdot (by decide) hp1
  have hpath2 : goPathJoin ["..", ImageFolderName, f2] =
      ".." ++ "/" ++ (ImageFolderName ++ "/" ++ f2) := goPathJoin_dotdot (by decide) hp2
  have hstep1 : epubAddImage check (NewEpub uuid title) src1 f1 =
      (.ok (goPathJoin ["..", ImageFolderName, f1]),
       { NewEpub uuid title with images := [(f1, src1)] }) := by
    unfold epubAddImage
    rw [addMedia_explicit_free imageFileFormat ImageFolderName
      (NewEpub uuid title).images hc1 hf1ne rfl]
    rfl
  have hfree2 : mmContains [(f1, src1)] f2 = false := by
    simp [mmContains, hb12]
  have hstep2 : epubAddImage check { NewEpub uuid title with images := [(f1, src1)] } src2 f2 =
      (.ok (goPathJoin ["..", ImageFolderName, f2]),
       { NewEpub uuid title with images := [(f1, src1), (f2, src2)] }) := by
    unfold epubAddImage
    rw [addMedia_explicit_free imageFileFormat ImageFolderName
      ({ NewEpub uuid title with images := [(f1, src1)] } : Epub).images hc2 hf2ne hfree2]
    rfl
  have hstep3 := setCover_eval check encode
    { NewEpub uuid title with images := [(f1, src1), (f2, src2)] } f1 hp1 henc rfl rfl
  have hstep4 := setCover_eval check encode
    (coverInstalled encode { NewEpub uuid title with images := [(f1, src1), (f2, src2)] } f1)
    f2 hp2 henc rfl rfl
  refine ⟨goPathJoin ["..", ImageFolderName, f1], goPathJoin ["..", ImageFolderName, f2],
    coverInstalled encode { NewEpub uuid title with images := [(f1, src1), (f2, src2)] } f1,
    coverInstalled encode
      (coverInstalled encode
        { NewEpub uuid title with images := [(f1, src1), (f2, src2)] } f1) f2,
    hstep1, hstep2, ?_, ?_, ?_, ?_, ?_, ?_, ?_, ?_, ?_⟩
  · rw [hpath1]
    exact hstep3
  · rw [hpath2]
    exact hstep4
  · rfl
  · rw [hpath2]
    rfl
  · show mmErase [(f1, src1), (f2, src2)] f1 = [(f2, src2)]
    simp [mmErase, hb21]
  · rfl
  · rfl
  · show mmContains (mmErase [(f1, src1), (f2, src2)] f1) f1 = false
    simp [mmErase, mmContains, hb21]
  · intro hcon
    apply hne
    have hb1 := @goFilepathBase_dotdot ImageFolderName f1 hp1
    have hb2 := @goFilepathBase_dotdot ImageFolderName f2 hp2
    rw [hpath1, hpath2] at hcon
    rw [← hb1, ← hb2, hcon]

/-- Witness for claim C9 at concrete inputs. -/
theorem claim_c9_setCover_twice_witness :
    ((fun _ => none : String → Option String) "a.png" = none) ∧
    ((fun _ => none : String → Option String) "b.png" = none) ∧
    ((fun _ => none : String → Option String)
      ((fun _ => "enc" : String → String) defaultCoverCSSContent) = none) ∧
    plainSeg "img1.png" = true ∧ plainSeg "img2.png" = true ∧
    ("img1.png" : String) ≠ "img2.png" ∧
    (∃ (p1 p2 : String) (e3 e4 : Epub),
      epubAddImage (fun _ => none) (NewEpub "u" "T") "a.png" "img1.png" =
        (.ok p1, { NewEpub "u" "T" with images := [("img1.png", "a.png")] }) ∧
      epubAddImage (fun _ => none)
        { NewEpub "u" "T" with images := [("img1.png", "a.png")] } "b.png" "img2.png" =
        (.ok p2, { NewEpub "u" "T" with
          images := [("img1.png", "a.png"), ("img2.png", "b.png")] }) ∧
      setCover (fun _ => none) (fun _ => "enc")
        { NewEpub "u" "T" with images := [("img1.png", "a.png"), ("img2.png", "b.png")] }
        p1 "" = some e3 ∧
      setCover (fun _ => none) (fun _ => "enc") e3 p2 "" = some e4 ∧
      e4.sections.map (fun s => s.filename) = [defaultCoverXhtmlFilename] ∧
      e4.sections.map (fun s => s.xhtml.body) = [defaultCoverBody p2] ∧
      e4.images = [("img2.png", "b.png")] ∧
      e4.css.map (fun kv => kv.1) = [defaultCoverCSSFilename] ∧
      e4.cover.imageFilename = "img2.png" ∧
      mmContains e4.images "img1.png" = false ∧
      p1 ≠ p2) :=
  ⟨rfl, rfl, rfl, by decide, by decide, by decide,
    claim_c9_setCover_twice "u" "T" "a.png" "b.png" "img1.png" "img2.png"
      (fun _ => none) (fun _ => "enc") rfl rfl rfl (by decide) (by decide) (by decide)⟩

/-- Claim C10: on the Epub built by NewEpub — whose construction registers
one identifier while no creators exist, assigning it the id "creator0" — a
first AddAuthor call assigns its creator entry that same id "creator0", so
the identifier element, the creator element and both of their linked meta
entries carry one shared id string. -/
theorem claim_c10_shared_creator0_id (uuid title author role : String) :
    ((pkgAddAuthor (NewEpub uuid title).pkg author role).metadata.identifier =
      [{ id := "creator0", data := "urn:uuid:" ++ uuid }]) ∧
    ((pkgAddAuthor (NewEpub uuid title).pkg author role).metadata.creator =
      [{ id := "creator0", data := author }]) ∧
    ((pkgAddAuthor (NewEpub uuid title).pkg author role).metadata.meta.map
      (fun mm => mm.id) = ["creator0", "creator0"]) ∧
    ((pkgAddAuthor (NewEpub uuid title).pkg author role).metadata.meta.map
      (fun mm => mm.refines) = ["#creator0", "#creator0"]) := by
  have hid : pkgCreatorID ++ goFormatNat 0 = "creator0" := by decide
  have href : "#" ++ (pkgCreatorID ++ goFormatNat 0) = "#creator0" := by decide
  refine ⟨?_, ?_, ?_, ?_⟩
  · show [({ id := pkgCreatorID ++ goFormatNat 0, data := "urn:uuid:" ++ uuid } : PkgIdentifier)] =
      [{ id := "creator0", data := "urn:uuid:" ++ uuid }]
    rw [hid]
  · show [] ++ [({ id := pkgCreatorID ++ goFormatNat 0, data := author } : PkgCreator)] =
      [{ id := "creator0", data := author }]
    rw [List.nil_append, hid]
  · show [pkgCreatorID ++ goFormatNat 0, pkgCreatorID ++ goFormatNat 0] =
      ["creator0", "creator0"]
    rw [hid]
  · show ["#" ++ (pkgCreatorID ++ goFormatNat 0), "#" ++ (pkgCreatorID ++ goFormatNat 0)] =
      ["#creator0", "#creator0"]
    rw [href]

end GoEpub
